import Mathlib

/-!
Shallow embedding of the order-fulfillment core of the
E-commerce Order & Inventory Integration System
(`app/tasks/order_tasks.py`, `app/tasks/inventory_tasks.py`,
`app/api/orders.py`, `app/db/models.py`), together with proofs about it.

Database rows are modelled as Lean structures, the database as lists of
rows, and each task as a pure function from a database state to a new
database state plus an outcome.  Transaction semantics are modelled by
which intermediate states are installed: the processor commits the
Processing status eagerly, and a business-validation failure rolls the
inventory back to that committed state before `_mark_failed` runs.
Wall-clock values (timestamps, durations) are environmental and are
either passed in as a parameter (`now`) or omitted from the model.
-/

namespace App

/-- Order lifecycle states (`OrderStatus` in `app/db/models.py`). -/
inductive OrderStatus where
  | pending
  | processing
  | completed
  | failed
  | cancelled
deriving DecidableEq, Repr

/-- Audit-log states (`SyncStatus` in `app/db/models.py`). -/
inductive SyncStatus where
  | success
  | failure
  | retry
deriving DecidableEq, Repr

/-- A catalog product row (`Product`): the fields the core reads. -/
structure Product where
  id : Nat
  sku : String
  name : String
deriving DecidableEq, Repr

/-- An inventory row (`Inventory`): one row per product. -/
structure Inventory where
  productId : Nat
  quantity : Int
  reserved : Int
  reorderLevel : Int
deriving DecidableEq, Repr

/-- A line item (`OrderItem`): immutable once the order exists. -/
structure OrderItem where
  sku : String
  quantity : Int
deriving DecidableEq, Repr

/-- An order row (`Order`): the fields the core reads or writes. -/
structure Order where
  id : Nat
  externalOrderId : String
  status : OrderStatus
  items : List OrderItem
  retryCount : Int
  errorMessage : Option String
  processedAt : Option Nat
deriving DecidableEq, Repr

/-- An audit row (`SyncLog`): the fields the core writes. -/
structure SyncLog where
  taskName : String
  status : SyncStatus
  orderId : Option Nat
  details : Option String
  errorMessage : Option String
deriving DecidableEq, Repr

/-- The database state seen by the tasks. -/
structure DB where
  products : List Product
  inventory : List Inventory
  orders : List Order
  syncLogs : List SyncLog
deriving DecidableEq, Repr

/-- `db.query(Product).filter(Product.sku == sku).first()`. -/
def findProduct (ps : List Product) (sku : String) : Option Product :=
  ps.find? (fun p => p.sku == sku)

/-- `db.query(Inventory).filter(Inventory.product_id == pid).first()`. -/
def findInventory (inv : List Inventory) (pid : Nat) : Option Inventory :=
  inv.find? (fun r => r.productId == pid)

/-- `db.query(Order).filter(Order.id == oid).first()`. -/
def findOrder (os : List Order) (oid : Nat) : Option Order :=
  os.find? (fun o => o.id == oid)

/-- Lookup of `inv.product` through the `product_id` foreign key. -/
def findProductById (ps : List Product) (pid : Nat) : Option Product :=
  ps.find? (fun p => p.id == pid)

/-- Mutating the ORM row returned by a `.first()` query: update the first
row whose `product_id` matches, leave everything else untouched. -/
def updateFirstInventory (inv : List Inventory) (pid : Nat) (f : Inventory → Inventory) :
    List Inventory :=
  match inv with
  | [] => []
  | r :: rs =>
    if r.productId == pid then f r :: rs else r :: updateFirstInventory rs pid f

/-- Mutating the ORM row returned by an order `.first()` query. -/
def updateFirstOrder (os : List Order) (oid : Nat) (f : Order → Order) : List Order :=
  match os with
  | [] => []
  | o :: rest =>
    if o.id == oid then f o :: rest else o :: updateFirstOrder rest oid f

/-- The `ValueError`s raised inside the item loop of `process_order`
(business-validation errors). -/
inductive ProcErr where
  | productNotFound (sku : String)
  | noInventory (sku : String)
  | insufficientStock (sku : String) (requested available : Int)
deriving DecidableEq, Repr

/-- The message string carried by each `ValueError` (quotes elided). -/
def errMessage : ProcErr → String
  | .productNotFound sku => "Product with SKU " ++ sku ++ " not found in catalog"
  | .noInventory sku => "No inventory record for " ++ sku
  | .insufficientStock sku req avail =>
      "Insufficient stock for " ++ sku ++ ": requested=" ++ toString req
        ++ ", available=" ++ toString avail

/-- The decrement of line 73, `inventory.quantity -= item.quantity`,
as a row transformer. -/
def decBy (q : Int) (r : Inventory) : Inventory :=
  { r with quantity := r.quantity - q }

/-- The item loop of `process_order` (lines 52-75): for each line item in
the stored order of `order.items`, resolve the product by SKU, query the
inventory row (`with_for_update`), check `available = quantity - reserved`
against the requested quantity and decrement.  Returns the final inventory
list or the first `ValueError`. -/
def processItems (ps : List Product) :
    List Inventory → List OrderItem → Except ProcErr (List Inventory)
  | inv, [] => .ok inv
  | inv, item :: rest =>
    match findProduct ps item.sku with
    | none => .error (.productNotFound item.sku)
    | some product =>
      match findInventory inv product.id with
      | none => .error (.noInventory item.sku)
      | some row =>
        if row.quantity - row.reserved < item.quantity then
          .error (.insufficientStock item.sku item.quantity (row.quantity - row.reserved))
        else
          processItems ps
            (updateFirstInventory inv product.id (decBy item.quantity))
            rest

/-- The sequence of SKUs whose inventory row is actually locked
(`with_for_update` returning a row) by the item loop, in the order the
loop visits them. -/
def lockedSkus (ps : List Product) : List Inventory → List OrderItem → List String
  | _, [] => []
  | inv, item :: rest =>
    match findProduct ps item.sku with
    | none => []
    | some product =>
      match findInventory inv product.id with
      | none => []
      | some row =>
        if row.quantity - row.reserved < item.quantity then [item.sku]
        else
          item.sku ::
            lockedSkus ps
              (updateFirstInventory inv product.id (decBy item.quantity))
              rest

/-- Outcome of one task attempt, as returned (or raised) by
`process_order`. -/
inductive Outcome where
  | notFound
  | completed
  | failedBusiness (e : ProcErr)
  | retryScheduled (delay : Nat)
  | failedPermanent (msg : String)
deriving DecidableEq, Repr

/-- `_mark_failed` (lines 128-148): set the order (if it exists) to
Failed with the message and append one Failure SyncLog, then commit. -/
def markFailed (db : DB) (orderId : Nat) (errorMessage : String) : DB :=
  { db with
    orders := updateFirstOrder db.orders orderId
      (fun o => { o with status := .failed, errorMessage := some errorMessage }),
    syncLogs := db.syncLogs ++
      [{ taskName := "process_order", status := .failure, orderId := some orderId,
         details := none, errorMessage := some errorMessage }] }

/-- `_log_retry` (lines 151-165): append one Retry SyncLog. -/
def logRetry (db : DB) (orderId : Nat) (attempt : Nat) (error : String) : DB :=
  { db with
    syncLogs := db.syncLogs ++
      [{ taskName := "process_order", status := .retry, orderId := some orderId,
         details := some ("Retry attempt " ++ toString attempt),
         errorMessage := some error }] }

/-- The success-log summary string of line 88. -/
def successDetails (externalOrderId : String) (itemCount : Nat) : String :=
  "Order " ++ externalOrderId ++ " processed - " ++ toString itemCount
    ++ " items fulfilled."

/-- `max_retries=3` from the task decorator (lines 20-27). -/
def max_retries : Nat := 3

/-- `process_order` (lines 40-106), the path in which no unexpected
(non-`ValueError`) exception occurs.  Steps: load the order (no log and no
mutation if absent); commit status Processing; run the item loop; on
success commit the decrements, the Completed order fields and one Success
SyncLog; on a `ValueError` roll back to the committed Processing state and
run `_mark_failed`.  No branch of this function calls `self.retry`. -/
def process_order (db : DB) (orderId : Nat) (now : Nat) : DB × Outcome :=
  match findOrder db.orders orderId with
  | none => (db, .notFound)
  | some order =>
    let db1 : DB :=
      { db with
        orders := updateFirstOrder db.orders orderId
          (fun o => { o with status := .processing }) }
    match processItems db1.products db1.inventory order.items with
    | .error e => (markFailed db1 orderId (errMessage e), .failedBusiness e)
    | .ok inv2 =>
      ({ db1 with
         inventory := inv2,
         orders := updateFirstOrder db1.orders orderId
           (fun o =>
             { o with
               status := .completed
               processedAt := some now
               errorMessage := none }),
         syncLogs := db1.syncLogs ++
           [{ taskName := "process_order", status := .success, orderId := some order.id,
              details := some (successDetails order.externalOrderId order.items.length),
              errorMessage := none }] },
       .completed)

/-- The `except Exception` handler of `process_order` (lines 108-122),
entered after an unexpected exception with message `errorMsg` has rolled
the session back to state `db`: mark the order Failed with a Failure
SyncLog, then, if the delivery counter `retries` is below `maxR`, append a
Retry SyncLog and re-schedule the job after `60 * 2 ^ retries` seconds;
otherwise the failure is permanent. -/
def handleUnexpected (db : DB) (orderId : Nat) (errorMsg : String)
    (retries maxR : Nat) : DB × Outcome :=
  let db1 := markFailed db orderId errorMsg
  if retries < maxR then
    (logRetry db1 orderId (retries + 1) errorMsg, .retryScheduled (60 * 2 ^ retries))
  else
    (db1, .failedPermanent errorMsg)

/-- Result of the manual-retry endpoint (`app/api/orders.py`). -/
inductive RetryApi where
  | notFound404
  | badStatus400 (status : OrderStatus)
  | requeued (orderId : Nat)
deriving DecidableEq, Repr

/-- `retry_order` (`app/api/orders.py`, lines 124-158): 404 when the order
is missing, 400 unless it is Failed or Pending, otherwise reset it to
Pending, clear the error message, increment `retry_count` and re-enqueue
the job. -/
def retry_order (db : DB) (orderId : Nat) : DB × RetryApi :=
  match findOrder db.orders orderId with
  | none => (db, .notFound404)
  | some o =>
    if o.status = .failed ∨ o.status = .pending then
      ({ db with
         orders := updateFirstOrder db.orders orderId
           (fun o =>
             { o with
               status := .pending
               errorMessage := none
               retryCount := o.retryCount + 1 }) },
       .requeued orderId)
    else (db, .badStatus400 o.status)

/-- One entry of the `low_stock` / `out_of_stock` lists built by
`sync_inventory` (the `out_of_stock` dicts carry no reorder level in the
source; it is carried here harmlessly). -/
structure StockAlert where
  sku : String
  name : String
  available : Int
  reorderLevel : Int
deriving DecidableEq, Repr

/-- The product name shown by the scanner, with the fallback of line 43. -/
def alertName (ps : List Product) (pid : Nat) : String :=
  match findProductById ps pid with
  | some p => p.name
  | none => "product_id=" ++ toString pid

/-- The product SKU shown by the scanner, with the fallback of line 44. -/
def alertSku (ps : List Product) (pid : Nat) : String :=
  match findProductById ps pid with
  | some p => p.sku
  | none => "?"

/-- The classification loop of `sync_inventory` (lines 42-55): returns
`(low_stock, out_of_stock)` in iteration order. -/
def classifyInventory (ps : List Product) :
    List Inventory → List StockAlert × List StockAlert
  | [] => ([], [])
  | inv :: rest =>
    let alert : StockAlert :=
      { sku := alertSku ps inv.productId
        name := alertName ps inv.productId
        available := inv.quantity - inv.reserved
        reorderLevel := inv.reorderLevel }
    let (low, oos) := classifyInventory ps rest
    if inv.quantity - inv.reserved ≤ 0 then (low, alert :: oos)
    else if inv.quantity - inv.reserved ≤ inv.reorderLevel then (alert :: low, oos)
    else (low, oos)

/-- The Failure SyncLog written for one out-of-stock product (lines 66-73). -/
def outOfStockLog (a : StockAlert) : SyncLog :=
  { taskName := "sync_inventory"
    status := .failure
    orderId := none
    details := some ("OUT OF STOCK: " ++ a.sku ++ " - " ++ a.name)
    errorMessage := some ("Available: " ++ toString a.available) }

/-- The Success SyncLog written for one low-stock product (lines 75-84). -/
def lowStockLog (a : StockAlert) : SyncLog :=
  { taskName := "sync_inventory"
    status := .success
    orderId := none
    details := some ("LOW STOCK: " ++ a.sku ++ " - " ++ a.name ++ ", available="
      ++ toString a.available ++ ", reorder_level=" ++ toString a.reorderLevel)
    errorMessage := none }

/-- The summary string of lines 59-62. -/
def scanSummary (total lowCount oosCount : Nat) : String :=
  "Inventory sync done: " ++ toString total ++ " products checked, "
    ++ toString lowCount ++ " low stock, " ++ toString oosCount ++ " out of stock."

/-- The run-summary SyncLog (lines 86-93); the source computes
`SUCCESS if not has_issues else SUCCESS`, i.e. always Success. -/
def scanSummaryLog (total lowCount oosCount : Nat) : SyncLog :=
  { taskName := "sync_inventory"
    status := .success
    orderId := none
    details := some (scanSummary total lowCount oosCount)
    errorMessage := none }

/-- `sync_inventory` (`app/tasks/inventory_tasks.py`, lines 26-103), the
no-exception path: scan every inventory row read-only, append one Failure
SyncLog per out-of-stock product, one Success SyncLog per low-stock
product and a single summary SyncLog, and return the counts. -/
def sync_inventory (db : DB) : DB × Nat × Nat × Nat :=
  let (low, oos) := classifyInventory db.products db.inventory
  let total := db.inventory.length
  ({ db with
     syncLogs := db.syncLogs ++ oos.map outOfStockLog ++ low.map lowStockLog
       ++ [scanSummaryLog total low.length oos.length] },
   (total, low.length, oos.length))

/-! ### Structural lemmas about row lookup and first-row update -/

theorem findInventory_cons (r : Inventory) (rs : List Inventory) (pid : Nat) :
    findInventory (r :: rs) pid =
      if r.productId = pid then some r else findInventory rs pid := by
  by_cases hc : r.productId = pid <;> simp [findInventory, hc]

theorem updateFirstInventory_cons (r : Inventory) (rs : List Inventory) (pid : Nat)
    (f : Inventory → Inventory) :
    updateFirstInventory (r :: rs) pid f =
      if r.productId = pid then f r :: rs else r :: updateFirstInventory rs pid f := by
  by_cases hc : r.productId = pid <;> simp [updateFirstInventory, hc]

theorem updateFirstInventory_of_none (pid : Nat) (f : Inventory → Inventory) :
    ∀ inv : List Inventory, findInventory inv pid = none →
      updateFirstInventory inv pid f = inv := by
  intro inv
  induction inv with
  | nil => intro _; rfl
  | cons r rs ih =>
    intro h
    rw [findInventory_cons] at h
    by_cases hc : r.productId = pid
    · simp [hc] at h
    · rw [updateFirstInventory_cons]
      simp only [hc, if_false, ite_false] at h ⊢
      simp [hc, ih h]

theorem findInventory_updateFirst_self (pid : Nat) (f : Inventory → Inventory)
    (hf : ∀ r, (f r).productId = r.productId) :
    ∀ (inv : List Inventory) (row : Inventory), findInventory inv pid = some row →
      findInventory (updateFirstInventory inv pid f) pid = some (f row) := by
  intro inv
  induction inv with
  | nil => intro row h; simp [findInventory] at h
  | cons r rs ih =>
    intro row h
    rw [findInventory_cons] at h
    rw [updateFirstInventory_cons]
    by_cases hc : r.productId = pid
    · simp only [hc, if_true, ite_true] at h ⊢
      cases h
      rw [findInventory_cons]
      simp [hf, hc]
    · simp only [hc, if_false, ite_false] at h ⊢
      rw [findInventory_cons]
      simp [hc, ih row h]

theorem findInventory_updateFirst_other (pid pid' : Nat) (f : Inventory → Inventory)
    (hf : ∀ r, (f r).productId = r.productId) (hne : pid' ≠ pid) :
    ∀ inv : List Inventory,
      findInventory (updateFirstInventory inv pid f) pid' = findInventory inv pid' := by
  intro inv
  induction inv with
  | nil => rfl
  | cons r rs ih =>
    rw [updateFirstInventory_cons]
    by_cases hc : r.productId = pid
    · simp only [hc, if_true, ite_true]
      rw [findInventory_cons, findInventory_cons]
      have : (f r).productId = r.productId := hf r
      rw [this, hc]
      simp [Ne.symm hne]
    · simp only [hc, if_false, ite_false]
      rw [findInventory_cons, findInventory_cons, ih]

theorem updateFirst_map_productId (pid : Nat) (f : Inventory → Inventory)
    (hf : ∀ r, (f r).productId = r.productId) :
    ∀ inv : List Inventory,
      (updateFirstInventory inv pid f).map (fun r => r.productId) =
        inv.map (fun r => r.productId) := by
  intro inv
  induction inv with
  | nil => rfl
  | cons r rs ih =>
    rw [updateFirstInventory_cons]
    by_cases hc : r.productId = pid <;> simp [hc, hf, ih]

theorem mem_updateFirstInventory (pid : Nat) (f : Inventory → Inventory) :
    ∀ (inv : List Inventory) (x : Inventory), x ∈ updateFirstInventory inv pid f →
      x ∈ inv ∨ ∃ row, findInventory inv pid = some row ∧ x = f row := by
  intro inv
  induction inv with
  | nil => intro x hx; exact absurd hx (by simp [updateFirstInventory])
  | cons r rs ih =>
    intro x hx
    rw [updateFirstInventory_cons] at hx
    by_cases hc : r.productId = pid
    · simp only [hc, if_true, ite_true] at hx
      rcases List.mem_cons.mp hx with h | h
      · right; exact ⟨r, by rw [findInventory_cons]; simp [hc], h⟩
      · left; exact List.mem_cons_of_mem _ h
    · simp only [hc, if_false, ite_false] at hx
      rcases List.mem_cons.mp hx with h | h
      · left; simp [h]
      · rcases ih x h with h' | ⟨row, hrow, hx'⟩
        · left; exact List.mem_cons_of_mem _ h'
        · right
          refine ⟨row, ?_, hx'⟩
          rw [findInventory_cons]
          simp [hc, hrow]

/-- Total on-hand quantity across all inventory rows. -/
def sumQty (inv : List Inventory) : Int :=
  (inv.map (fun r => r.quantity)).sum

theorem sumQty_updateFirstInventory (pid : Nat) (f : Inventory → Inventory) :
    ∀ (inv : List Inventory) (row : Inventory), findInventory inv pid = some row →
      sumQty (updateFirstInventory inv pid f) =
        sumQty inv - row.quantity + (f row).quantity := by
  intro inv
  induction inv with
  | nil => intro row h; simp [findInventory] at h
  | cons r rs ih =>
    intro row h
    rw [findInventory_cons] at h
    rw [updateFirstInventory_cons]
    by_cases hc : r.productId = pid
    · simp only [hc, if_true, ite_true] at h ⊢
      cases h
      simp [sumQty]
      ring
    · simp only [hc, if_false, ite_false] at h ⊢
      simp only [sumQty, List.map_cons, List.sum_cons] at ih ⊢
      rw [ih row h]
      ring

/-! ### Lemmas about the item loop -/

theorem decBy_productId (q : Int) (r : Inventory) : (decBy q r).productId = r.productId := rfl

theorem processItems_nil (ps : List Product) (inv : List Inventory) :
    processItems ps inv [] = .ok inv := rfl

theorem processItems_cons (ps : List Product) (inv : List Inventory)
    (item : OrderItem) (rest : List OrderItem) :
    processItems ps inv (item :: rest) =
      match findProduct ps item.sku with
      | none => .error (.productNotFound item.sku)
      | some product =>
        match findInventory inv product.id with
        | none => .error (.noInventory item.sku)
        | some row =>
          if row.quantity - row.reserved < item.quantity then
            .error (.insufficientStock item.sku item.quantity (row.quantity - row.reserved))
          else
            processItems ps (updateFirstInventory inv product.id (decBy item.quantity)) rest := rfl

theorem processItems_nonneg (ps : List Product) :
    ∀ (items : List OrderItem) (inv inv2 : List Inventory),
      (∀ r ∈ inv, 0 ≤ r.quantity - r.reserved) →
      processItems ps inv items = .ok inv2 →
      ∀ r ∈ inv2, 0 ≤ r.quantity - r.reserved := by
  intro items
  induction items with
  | nil =>
    intro inv inv2 hinv h
    rw [processItems_nil] at h
    cases h
    exact hinv
  | cons item rest ih =>
    intro inv inv2 hinv h
    rw [processItems_cons] at h
    cases hp : findProduct ps item.sku with
    | none => simp only [hp] at h; cases h
    | some product =>
      simp only [hp] at h
      cases hr : findInventory inv product.id with
      | none => simp only [hr] at h; cases h
      | some row =>
        simp only [hr] at h
        by_cases hlt : row.quantity - row.reserved < item.quantity
        · rw [if_pos hlt] at h; cases h
        · rw [if_neg hlt] at h
          refine ih _ inv2 ?_ h
          intro r hrmem
          rcases mem_updateFirstInventory product.id (decBy item.quantity) inv r hrmem with
            hm | ⟨row2, hrow2, hx⟩
          · exact hinv r hm
          · rw [hrow2] at hr
            cases hr
            subst hx
            have hle := not_lt.mp hlt
            simp only [decBy]
            linarith

theorem processItems_map_productId (ps : List Product) :
    ∀ (items : List OrderItem) (inv inv2 : List Inventory),
      processItems ps inv items = .ok inv2 →
      inv2.map (fun r => r.productId) = inv.map (fun r => r.productId) := by
  intro items
  induction items with
  | nil => intro inv inv2 h; rw [processItems_nil] at h; cases h; rfl
  | cons item rest ih =>
    intro inv inv2 h
    rw [processItems_cons] at h
    cases hp : findProduct ps item.sku with
    | none => simp only [hp] at h; cases h
    | some product =>
      simp only [hp] at h
      cases hr : findInventory inv product.id with
      | none => simp only [hr] at h; cases h
      | some row =>
        simp only [hr] at h
        by_cases hlt : row.quantity - row.reserved < item.quantity
        · rw [if_pos hlt] at h; cases h
        · rw [if_neg hlt] at h
          rw [ih _ _ h]
          exact updateFirst_map_productId product.id (decBy item.quantity)
            (decBy_productId item.quantity) inv

/-- The on-hand quantity of the (first) inventory row of a product. -/
def qtyOf (inv : List Inventory) (pid : Nat) : Int :=
  match findInventory inv pid with
  | some r => r.quantity
  | none => 0

/-- The available stock (`quantity - reserved`) of a product's row. -/
def availOf (inv : List Inventory) (pid : Nat) : Int :=
  match findInventory inv pid with
  | some r => r.quantity - r.reserved
  | none => 0

/-- Total quantity an order demands of a given product: the sum of the
quantities of its items whose SKU resolves to that product. -/
def demand (ps : List Product) : List OrderItem → Nat → Int
  | [], _ => 0
  | item :: rest, pid =>
    (match findProduct ps item.sku with
     | some p => if p.id = pid then item.quantity else 0
     | none => 0) + demand ps rest pid

/-- The product ids an item list resolves to (the products it references). -/
def resolvedIds (ps : List Product) : List OrderItem → List Nat
  | [] => []
  | item :: rest =>
    (match findProduct ps item.sku with
     | some p => [p.id]
     | none => []) ++ resolvedIds ps rest

theorem demand_nil (ps : List Product) (pid : Nat) : demand ps [] pid = 0 := rfl

theorem demand_cons (ps : List Product) (item : OrderItem) (rest : List OrderItem) (pid : Nat) :
    demand ps (item :: rest) pid =
      (match findProduct ps item.sku with
       | some p => if p.id = pid then item.quantity else 0
       | none => 0) + demand ps rest pid := rfl

theorem resolvedIds_cons (ps : List Product) (item : OrderItem) (rest : List OrderItem) :
    resolvedIds ps (item :: rest) =
      (match findProduct ps item.sku with
       | some p => [p.id]
       | none => []) ++ resolvedIds ps rest := rfl

theorem qtyOf_eq_of_find (inv : List Inventory) (pid : Nat) (row : Inventory)
    (h : findInventory inv pid = some row) : qtyOf inv pid = row.quantity := by
  unfold qtyOf
  rw [h]

theorem qtyOf_updateFirst_self (pid : Nat) (f : Inventory → Inventory)
    (hf : ∀ r, (f r).productId = r.productId) (inv : List Inventory) (row : Inventory)
    (h : findInventory inv pid = some row) :
    qtyOf (updateFirstInventory inv pid f) pid = (f row).quantity := by
  unfold qtyOf
  rw [findInventory_updateFirst_self pid f hf inv row h]

theorem qtyOf_updateFirst_other (pid pid2 : Nat) (f : Inventory → Inventory)
    (hf : ∀ r, (f r).productId = r.productId) (hne : pid2 ≠ pid) (inv : List Inventory) :
    qtyOf (updateFirstInventory inv pid f) pid2 = qtyOf inv pid2 := by
  unfold qtyOf
  rw [findInventory_updateFirst_other pid pid2 f hf hne inv]

theorem processItems_qtyOf (ps : List Product) :
    ∀ (items : List OrderItem) (inv inv2 : List Inventory),
      processItems ps inv items = .ok inv2 →
      ∀ pid, qtyOf inv2 pid = qtyOf inv pid - demand ps items pid := by
  intro items
  induction items with
  | nil =>
    intro inv inv2 h pid
    rw [processItems_nil] at h
    cases h
    simp [demand_nil]
  | cons item rest ih =>
    intro inv inv2 h pid
    rw [processItems_cons] at h
    cases hp : findProduct ps item.sku with
    | none => simp only [hp] at h; cases h
    | some product =>
      simp only [hp] at h
      cases hr : findInventory inv product.id with
      | none => simp only [hr] at h; cases h
      | some row =>
        simp only [hr] at h
        by_cases hlt : row.quantity - row.reserved < item.quantity
        · rw [if_pos hlt] at h; cases h
        · rw [if_neg hlt] at h
          have hstep := ih _ _ h pid
          rw [hstep, demand_cons]
          simp only [hp]
          by_cases hpid : pid = product.id
          · subst hpid
            rw [qtyOf_updateFirst_self product.id (decBy item.quantity)
                (decBy_productId item.quantity) inv row hr,
              qtyOf_eq_of_find inv product.id row hr, if_pos rfl]
            simp only [decBy]
            ring
          · have hne2 : ¬ (product.id = pid) := fun hh => hpid hh.symm
            rw [qtyOf_updateFirst_other product.id pid (decBy item.quantity)
                (decBy_productId item.quantity) hpid inv, if_neg hne2]
            ring

theorem processItems_sumQty (ps : List Product) :
    ∀ (items : List OrderItem) (inv inv2 : List Inventory),
      processItems ps inv items = .ok inv2 →
      sumQty inv2 = sumQty inv - (items.map (fun i => i.quantity)).sum := by
  intro items
  induction items with
  | nil =>
    intro inv inv2 h
    rw [processItems_nil] at h
    cases h
    simp
  | cons item rest ih =>
    intro inv inv2 h
    rw [processItems_cons] at h
    cases hp : findProduct ps item.sku with
    | none => simp only [hp] at h; cases h
    | some product =>
      simp only [hp] at h
      cases hr : findInventory inv product.id with
      | none => simp only [hr] at h; cases h
      | some row =>
        simp only [hr] at h
        by_cases hlt : row.quantity - row.reserved < item.quantity
        · rw [if_pos hlt] at h; cases h
        · rw [if_neg hlt] at h
          have hstep := ih _ _ h
          rw [hstep, sumQty_updateFirstInventory product.id (decBy item.quantity) inv row hr]
          simp only [decBy, List.map_cons, List.sum_cons]
          ring

theorem processItems_unreferenced (ps : List Product) :
    ∀ (items : List OrderItem) (inv inv2 : List Inventory),
      processItems ps inv items = .ok inv2 →
      ∀ pid, pid ∉ resolvedIds ps items →
        findInventory inv2 pid = findInventory inv pid := by
  intro items
  induction items with
  | nil =>
    intro inv inv2 h pid _
    rw [processItems_nil] at h
    cases h
    rfl
  | cons item rest ih =>
    intro inv inv2 h pid hmem
    rw [processItems_cons] at h
    rw [resolvedIds_cons] at hmem
    cases hp : findProduct ps item.sku with
    | none => simp only [hp] at h; cases h
    | some product =>
      simp only [hp] at h
      simp only [hp, List.mem_append, List.mem_singleton, not_or] at hmem
      cases hr : findInventory inv product.id with
      | none => simp only [hr] at h; cases h
      | some row =>
        simp only [hr] at h
        by_cases hlt : row.quantity - row.reserved < item.quantity
        · rw [if_pos hlt] at h; cases h
        · rw [if_neg hlt] at h
          rw [ih _ _ h pid hmem.2]
          exact findInventory_updateFirst_other product.id pid (decBy item.quantity)
            (decBy_productId item.quantity) hmem.1 inv

theorem lockedSkus_cons (ps : List Product) (inv : List Inventory)
    (item : OrderItem) (rest : List OrderItem) :
    lockedSkus ps inv (item :: rest) =
      match findProduct ps item.sku with
      | none => []
      | some product =>
        match findInventory inv product.id with
        | none => []
        | some row =>
          if row.quantity - row.reserved < item.quantity then [item.sku]
          else
            item.sku ::
              lockedSkus ps (updateFirstInventory inv product.id (decBy item.quantity)) rest := rfl

theorem lockedSkus_of_ok (ps : List Product) :
    ∀ (items : List OrderItem) (inv inv2 : List Inventory),
      processItems ps inv items = .ok inv2 →
      lockedSkus ps inv items = items.map (fun i => i.sku) := by
  intro items
  induction items with
  | nil => intro inv inv2 _; rfl
  | cons item rest ih =>
    intro inv inv2 h
    rw [processItems_cons] at h
    rw [lockedSkus_cons]
    cases hp : findProduct ps item.sku with
    | none => simp only [hp] at h; cases h
    | some product =>
      simp only [hp] at h ⊢
      cases hr : findInventory inv product.id with
      | none => simp only [hr] at h; cases h
      | some row =>
        simp only [hr] at h ⊢
        by_cases hlt : row.quantity - row.reserved < item.quantity
        · rw [if_pos hlt] at h; cases h
        · rw [if_neg hlt] at h
          rw [if_neg hlt, ih _ _ h]
          rfl

theorem processItems_append (ps : List Product) :
    ∀ (l1 l2 : List OrderItem) (inv : List Inventory),
      processItems ps inv (l1 ++ l2) =
        match processItems ps inv l1 with
        | .ok invm => processItems ps invm l2
        | .error e => .error e := by
  intro l1
  induction l1 with
  | nil => intro l2 inv; rw [List.nil_append, processItems_nil]
  | cons item rest ih =>
    intro l2 inv
    rw [List.cons_append, processItems_cons, processItems_cons]
    cases hp : findProduct ps item.sku with
    | none => simp only [hp]
    | some product =>
      simp only [hp]
      cases hr : findInventory inv product.id with
      | none => simp only [hr]
      | some row =>
        simp only [hr]
        by_cases hlt : row.quantity - row.reserved < item.quantity
        · rw [if_pos hlt, if_pos hlt]
        · rw [if_neg hlt, if_neg hlt]
          exact ih l2 _

theorem processItems_insufficient_lt (ps : List Product) :
    ∀ (items : List OrderItem) (inv : List Inventory) (sku : String) (req avail : Int),
      processItems ps inv items = .error (.insufficientStock sku req avail) →
      avail < req := by
  intro items
  induction items with
  | nil => intro inv sku req avail h; rw [processItems_nil] at h; cases h
  | cons item rest ih =>
    intro inv sku req avail h
    rw [processItems_cons] at h
    cases hp : findProduct ps item.sku with
    | none => simp only [hp] at h; simp at h
    | some product =>
      simp only [hp] at h
      cases hr : findInventory inv product.id with
      | none => simp only [hr] at h; simp at h
      | some row =>
        simp only [hr] at h
        by_cases hlt : row.quantity - row.reserved < item.quantity
        · rw [if_pos hlt] at h
          simp only [Except.error.injEq, ProcErr.insufficientStock.injEq] at h
          rcases h with ⟨_, hreq, havail⟩
          rw [← hreq, ← havail]
          exact hlt
        · rw [if_neg hlt] at h
          exact ih _ sku req avail h

theorem availOf_updateFirst_decBy (inv : List Inventory) (pid pid2 : Nat) (q : Int)
    (hq : 0 ≤ q) :
    availOf (updateFirstInventory inv pid (decBy q)) pid2 ≤ availOf inv pid2 := by
  by_cases hpid : pid2 = pid
  · subst hpid
    cases hr : findInventory inv pid2 with
    | none =>
      rw [updateFirstInventory_of_none pid2 (decBy q) inv hr]
    | some row =>
      have hself := findInventory_updateFirst_self pid2 (decBy q) (decBy_productId q) inv row hr
      simp only [availOf, hself, hr, decBy]
      linarith
  · rw [availOf, availOf,
      findInventory_updateFirst_other pid pid2 (decBy q) (decBy_productId q) hpid inv]

theorem findInventory_isSome_iff (inv : List Inventory) (pid : Nat) :
    (findInventory inv pid).isSome = true ↔ pid ∈ inv.map (fun r => r.productId) := by
  induction inv with
  | nil => simp [findInventory]
  | cons r rs ih =>
    rw [findInventory_cons]
    by_cases hc : r.productId = pid
    · simp [hc]
    · have hc2 : ¬ (pid = r.productId) := fun hh => hc hh.symm
      simp [hc, hc2, ih]

/-! ### Lemmas about order lookup and update -/

theorem findOrder_cons (o : Order) (os : List Order) (oid : Nat) :
    findOrder (o :: os) oid = if o.id = oid then some o else findOrder os oid := by
  by_cases hc : o.id = oid <;> simp [findOrder, hc]

theorem updateFirstOrder_cons (o : Order) (os : List Order) (oid : Nat) (f : Order → Order) :
    updateFirstOrder (o :: os) oid f =
      if o.id = oid then f o :: os else o :: updateFirstOrder os oid f := by
  by_cases hc : o.id = oid <;> simp [updateFirstOrder, hc]

theorem updateFirstOrder_of_none (oid : Nat) (f : Order → Order) :
    ∀ os : List Order, findOrder os oid = none → updateFirstOrder os oid f = os := by
  intro os
  induction os with
  | nil => intro _; rfl
  | cons o rest ih =>
    intro h
    rw [findOrder_cons] at h
    by_cases hc : o.id = oid
    · simp [hc] at h
    · rw [updateFirstOrder_cons]
      simp only [hc, if_false, ite_false] at h ⊢
      simp [hc, ih h]

theorem findOrder_updateFirst_self (oid : Nat) (f : Order → Order)
    (hf : ∀ o, (f o).id = o.id) :
    ∀ (os : List Order) (o : Order), findOrder os oid = some o →
      findOrder (updateFirstOrder os oid f) oid = some (f o) := by
  intro os
  induction os with
  | nil => intro o h; simp [findOrder] at h
  | cons o2 rest ih =>
    intro o h
    rw [findOrder_cons] at h
    rw [updateFirstOrder_cons]
    by_cases hc : o2.id = oid
    · simp only [hc, if_true, ite_true] at h ⊢
      cases h
      rw [findOrder_cons]
      simp [hf, hc]
    · simp only [hc, if_false, ite_false] at h ⊢
      rw [findOrder_cons]
      simp [hc, ih o h]

theorem updateFirstOrder_map_retryCount (oid : Nat) (f : Order → Order)
    (hf : ∀ o, (f o).retryCount = o.retryCount) :
    ∀ os : List Order,
      (updateFirstOrder os oid f).map (fun o => o.retryCount) =
        os.map (fun o => o.retryCount) := by
  intro os
  induction os with
  | nil => rfl
  | cons o rest ih =>
    rw [updateFirstOrder_cons]
    by_cases hc : o.id = oid <;> simp [hc, hf, ih]

theorem forall2_retryCount_le_refl :
    ∀ os : List Order, List.Forall₂ (fun a b => a.retryCount ≤ b.retryCount) os os := by
  intro os
  induction os with
  | nil => exact List.Forall₂.nil
  | cons o rest ih => exact List.Forall₂.cons (le_refl o.retryCount) ih

theorem updateFirstOrder_forall2_le (oid : Nat) (f : Order → Order)
    (hf : ∀ o, o.retryCount ≤ (f o).retryCount) :
    ∀ os : List Order,
      List.Forall₂ (fun a b => a.retryCount ≤ b.retryCount) os (updateFirstOrder os oid f) := by
  intro os
  induction os with
  | nil => exact List.Forall₂.nil
  | cons o rest ih =>
    rw [updateFirstOrder_cons]
    by_cases hc : o.id = oid
    · rw [if_pos hc]
      exact List.Forall₂.cons (hf o) (forall2_retryCount_le_refl rest)
    · rw [if_neg hc]
      exact List.Forall₂.cons (le_refl o.retryCount) ih

/-! ### Insufficient stock is always surfaced -/

theorem processItems_err_of_lowstock (ps : List Product) :
    ∀ (items : List OrderItem) (inv : List Inventory),
      (∀ item ∈ items, ∃ p, findProduct ps item.sku = some p ∧
        (findInventory inv p.id).isSome = true) →
      (∀ item ∈ items, 0 ≤ item.quantity) →
      (∃ item ∈ items, ∃ p, findProduct ps item.sku = some p ∧
        availOf inv p.id < item.quantity) →
      ∃ sku req avail,
        processItems ps inv items = .error (.insufficientStock sku req avail) := by
  intro items
  induction items with
  | nil =>
    intro inv _ _ hbad
    rcases hbad with ⟨item, hmem, _⟩
    exact absurd hmem (List.not_mem_nil item)
  | cons item rest ih =>
    intro inv hres hq hbad
    rcases hres item (List.mem_cons_self item rest) with ⟨p0, hp0, hsome0⟩
    rcases Option.isSome_iff_exists.mp hsome0 with ⟨row0, hr0⟩
    rw [processItems_cons]
    simp only [hp0, hr0]
    by_cases hlt : row0.quantity - row0.reserved < item.quantity
    · rw [if_pos hlt]
      exact ⟨item.sku, item.quantity, row0.quantity - row0.reserved, rfl⟩
    · rw [if_neg hlt]
      have hq0 : 0 ≤ item.quantity := hq item (List.mem_cons_self item rest)
      have hpids :
          (updateFirstInventory inv p0.id (decBy item.quantity)).map (fun r => r.productId) =
            inv.map (fun r => r.productId) :=
        updateFirst_map_productId p0.id (decBy item.quantity)
          (decBy_productId item.quantity) inv
      refine ih (updateFirstInventory inv p0.id (decBy item.quantity)) ?_ ?_ ?_
      · intro it hit
        rcases hres it (List.mem_cons_of_mem item hit) with ⟨p, hp, hsome⟩
        refine ⟨p, hp, ?_⟩
        rw [findInventory_isSome_iff, hpids, ← findInventory_isSome_iff]
        exact hsome
      · intro it hit
        exact hq it (List.mem_cons_of_mem item hit)
      · rcases hbad with ⟨itb, hitb, p, hp, hbadavail⟩
        rcases List.mem_cons.mp hitb with heq | hmemrest
        · exfalso
          subst heq
          rw [hp0] at hp
          cases hp
          have havail0 : availOf inv p0.id = row0.quantity - row0.reserved := by
            unfold availOf
            rw [hr0]
          rw [havail0] at hbadavail
          exact hlt hbadavail
        · refine ⟨itb, hmemrest, p, hp, lt_of_le_of_lt ?_ hbadavail⟩
          exact availOf_updateFirst_decBy inv p0.id p.id item.quantity hq0

/-! ### An executable invariant and observation helpers -/

/-- Every inventory row has nonnegative available stock. -/
def availNonneg (inv : List Inventory) : Bool :=
  inv.all (fun r => decide (0 ≤ r.quantity - r.reserved))

theorem availNonneg_iff (inv : List Inventory) :
    availNonneg inv = true ↔ ∀ r ∈ inv, 0 ≤ r.quantity - r.reserved := by
  simp [availNonneg, List.all_eq_true]

/-- The `retry_count` column of every order row, in table order. -/
def retryCounts (os : List Order) : List Int :=
  os.map (fun o => o.retryCount)

/-- The `status` column of every order row, in table order. -/
def statuses (os : List Order) : List OrderStatus :=
  os.map (fun o => o.status)

/-! ### Concrete sample data used by closed-form checks -/

def pA : Product := { id := 1, sku := "A1", name := "Widget A" }

def pB : Product := { id := 2, sku := "B2", name := "Widget B" }

def sampleOrder : Order :=
  { id := 1, externalOrderId := "EXT-1", status := .pending,
    items := [{ sku := "B2", quantity := 1 }, { sku := "A1", quantity := 3 }],
    retryCount := 0, errorMessage := none, processedAt := none }

def sampleDB : DB :=
  { products := [pA, pB],
    inventory := [{ productId := 1, quantity := 5, reserved := 0, reorderLevel := 10 },
                  { productId := 2, quantity := 7, reserved := 2, reorderLevel := 3 }],
    orders := [sampleOrder], syncLogs := [] }

def emptyDB : DB := { products := [], inventory := [], orders := [], syncLogs := [] }

def completedOrder : Order :=
  { id := 1, externalOrderId := "EXT-1", status := .completed,
    items := [{ sku := "A1", quantity := 1 }],
    retryCount := 0, errorMessage := none, processedAt := none }

def terminalDB : DB :=
  { products := [pA, pB],
    inventory := [{ productId := 1, quantity := 5, reserved := 0, reorderLevel := 10 }],
    orders := [completedOrder], syncLogs := [] }

def lowOrder : Order :=
  { id := 3, externalOrderId := "EXT-3", status := .pending,
    items := [{ sku := "A1", quantity := 5 }],
    retryCount := 0, errorMessage := none, processedAt := none }

def lowDB : DB :=
  { products := [pA],
    inventory := [{ productId := 1, quantity := 2, reserved := 0, reorderLevel := 10 }],
    orders := [lowOrder], syncLogs := [] }

def missingInvOrder : Order :=
  { id := 4, externalOrderId := "EXT-4", status := .pending,
    items := [{ sku := "A1", quantity := 1 }],
    retryCount := 0, errorMessage := none, processedAt := none }

def missingInvDB : DB :=
  { products := [pA], inventory := [], orders := [missingInvOrder], syncLogs := [] }

def exhaustDB : DB :=
  { products := [], inventory := [],
    orders := [{ id := 1, externalOrderId := "EXT-9", status := .processing, items := [],
                 retryCount := 0, errorMessage := none, processedAt := none }],
    syncLogs := [] }

/-! ### C1 -/

/-- C1: for every order processed by `process_order`, if every inventory
row satisfies `available = quantity - reserved ≥ 0` before the attempt,
then after the attempt commits — whatever the outcome — every inventory
row still satisfies `available ≥ 0`: the processor checks availability
under the row lock before any decrement, so no committed decrement drives
`available` below zero. -/
theorem c1_available_never_negative (db : DB) (orderId now : Nat)
    (h : availNonneg db.inventory = true) :
    availNonneg (process_order db orderId now).1.inventory = true := by
  cases ho : findOrder db.orders orderId with
  | none =>
    simp only [process_order, ho]
    exact h
  | some order =>
    cases hpi : processItems db.products db.inventory order.items with
    | error e =>
      simp only [process_order, ho, hpi, markFailed]
      exact h
    | ok inv2 =>
      simp only [process_order, ho, hpi]
      rw [availNonneg_iff] at h ⊢
      exact processItems_nonneg db.products order.items db.inventory inv2 h hpi

/-- Witness for C1: the sample database satisfies the invariant before
the attempt, and the theorem yields it afterwards. -/
theorem c1_available_never_negative_witness :
    availNonneg (process_order sampleDB 1 42).1.inventory = true :=
  c1_available_never_negative sampleDB 1 42 (by decide)

/-! ### C2 -/

/-- C2: evaluation at the failing input.  `process_order` never checks for
a terminal status: redelivering a job for an order already Completed
re-runs the whole pipeline — the attempt succeeds again, the inventory
quantity drops from 5 to 4 and a new Success SyncLog is appended, so the
redelivery is not a no-op. -/
theorem c2_completed_order_reprocessed :
    findOrder terminalDB.orders 1 = some completedOrder ∧
    completedOrder.status = .completed ∧
    (process_order terminalDB 1 7).2 = .completed ∧
    qtyOf terminalDB.inventory 1 = 5 ∧
    qtyOf (process_order terminalDB 1 7).1.inventory 1 = 4 ∧
    terminalDB.syncLogs.length = 0 ∧
    (process_order terminalDB 1 7).1.syncLogs.length = 1 :=
  ⟨rfl, rfl, rfl, rfl, rfl, rfl, rfl⟩

/-! ### C3 -/

/-- C3 counterexample: an order whose stored item list is `[B2, A1]` has
its inventory rows locked in exactly that stored order, `["B2", "A1"]`,
which is not sorted by SKU — so the locked sequence is not the
sorted-by-SKU permutation of the items. -/
theorem c3_counterexample :
    lockedSkus sampleDB.products sampleDB.inventory sampleOrder.items = ["B2", "A1"] ∧
    ¬ List.Sorted (fun a b => a ≤ b)
        (lockedSkus sampleDB.products sampleDB.inventory sampleOrder.items) := by
  refine ⟨rfl, ?_⟩
  intro hs
  rw [show lockedSkus sampleDB.products sampleDB.inventory sampleOrder.items =
      ["B2", "A1"] from rfl] at hs
  rw [List.sorted_cons] at hs
  have hb : ("B2" : String) ≤ "A1" := hs.1 "A1" (by simp)
  rw [String.le_iff_toList_le] at hb
  exact absurd hb (by decide)

/-- C3 amended: `process_order` visits the line items in the order they
are stored on the order (`order.items`), performing no sort: on a
successful attempt the sequence of SKUs locked is exactly the item list's
own SKU sequence. -/
theorem c3_visit_order (ps : List Product) (inv inv2 : List Inventory)
    (items : List OrderItem) (h : processItems ps inv items = .ok inv2) :
    lockedSkus ps inv items = items.map (fun i => i.sku) :=
  lockedSkus_of_ok ps items inv inv2 h

/-- Witness for the amended C3 at the sample order. -/
theorem c3_visit_order_witness :
    lockedSkus sampleDB.products sampleDB.inventory sampleOrder.items = ["B2", "A1"] :=
  (c3_visit_order sampleDB.products sampleDB.inventory
    [{ productId := 1, quantity := 2, reserved := 0, reorderLevel := 10 },
     { productId := 2, quantity := 6, reserved := 2, reorderLevel := 3 }]
    sampleOrder.items rfl).trans rfl

/-! ### C4 -/

/-- C4 counterexample: for an absent order id, `process_order` reports the
not-found failure but writes no SyncLog at all (the claim requires exactly
one audit record for the attempt). -/
theorem c4_counterexample :
    (process_order emptyDB 5 0).2 = .notFound ∧
    (process_order emptyDB 5 0).1.syncLogs.length = 0 ∧
    ¬ (process_order emptyDB 5 0).1.syncLogs.length = 1 :=
  ⟨rfl, rfl, by decide⟩

/-- C4 amended: for every order id with no Order row, `process_order`
returns the permanent not-found outcome, schedules no retry, and leaves
the database — its SyncLogs included — completely unchanged: no audit
record is written for the attempt. -/
theorem c4_not_found_is_silent (db : DB) (oid now : Nat)
    (h : findOrder db.orders oid = none) :
    process_order db oid now = (db, .notFound) := by
  simp only [process_order, h]

/-- Witness for the amended C4. -/
theorem c4_not_found_is_silent_witness :
    process_order emptyDB 1 0 = (emptyDB, .notFound) :=
  c4_not_found_is_silent emptyDB 1 0 rfl

/-! ### C5 -/

/-- C5: for every order (all of whose items reference catalog products
with inventory rows and nonnegative quantities) containing a line item
whose requested quantity exceeds the available stock of its SKU,
`process_order` fails with the insufficient-stock `ValueError` carrying
the requested and available counts (`requested > available`), rolls back
so every inventory row is unchanged, sets the order status to Failed with
the message, writes exactly one Failure SyncLog, and schedules no
retry. -/
theorem c5_insufficient_stock (db : DB) (oid now : Nat) (o : Order)
    (ho : findOrder db.orders oid = some o)
    (hres : ∀ item ∈ o.items, ∃ p, findProduct db.products item.sku = some p ∧
      (findInventory db.inventory p.id).isSome = true)
    (hq : ∀ item ∈ o.items, 0 ≤ item.quantity)
    (hbad : ∃ item ∈ o.items, ∃ p, findProduct db.products item.sku = some p ∧
      availOf db.inventory p.id < item.quantity) :
    ∃ sku req avail, req > avail ∧
      (process_order db oid now).2 = .failedBusiness (.insufficientStock sku req avail) ∧
      (process_order db oid now).1.inventory = db.inventory ∧
      (∃ o2, findOrder (process_order db oid now).1.orders oid = some o2 ∧
        o2.status = .failed ∧
        o2.errorMessage = some (errMessage (.insufficientStock sku req avail))) ∧
      (process_order db oid now).1.syncLogs = db.syncLogs ++
        [{ taskName := "process_order", status := .failure, orderId := some oid,
           details := none,
           errorMessage := some (errMessage (.insufficientStock sku req avail)) }] ∧
      ∀ d, (process_order db oid now).2 ≠ .retryScheduled d := by
  obtain ⟨sku, req, avail, hpi⟩ :=
    processItems_err_of_lowstock db.products o.items db.inventory hres hq hbad
  have hlt := processItems_insufficient_lt db.products o.items db.inventory sku req avail hpi
  refine ⟨sku, req, avail, hlt, ?_, ?_, ?_, ?_, ?_⟩
  · simp only [process_order, ho, hpi]
  · simp only [process_order, ho, hpi, markFailed]
  · simp only [process_order, ho, hpi, markFailed]
    have h1 := findOrder_updateFirst_self oid
      (fun o2 => { o2 with status := OrderStatus.processing }) (fun _ => rfl) db.orders o ho
    have h2 := findOrder_updateFirst_self oid
      (fun o2 => { o2 with
        status := OrderStatus.failed
        errorMessage := some (errMessage (ProcErr.insufficientStock sku req avail)) })
      (fun _ => rfl) _ _ h1
    exact ⟨_, h2, rfl, rfl⟩
  · simp only [process_order, ho, hpi, markFailed]
  · simp only [process_order, ho, hpi]
    intro d hd
    cases hd

/-- Witness for C5: the spec scenario — stock 2, request 5 — ends Failed
with the inventory untouched and a single Failure SyncLog. -/
theorem c5_insufficient_stock_witness :
    (process_order lowDB 3 0).1.inventory = lowDB.inventory ∧
    (process_order lowDB 3 0).1.syncLogs.length = 1 := by
  obtain ⟨sku, req, avail, hgt, hout, hinv, horder, hlogs, hnoretry⟩ :=
    c5_insufficient_stock lowDB 3 0 lowOrder rfl
      (by
        intro item hitem
        simp only [lowOrder, List.mem_singleton] at hitem
        subst hitem
        exact ⟨pA, rfl, rfl⟩)
      (by
        intro item hitem
        simp only [lowOrder, List.mem_singleton] at hitem
        subst hitem
        decide)
      ⟨{ sku := "A1", quantity := 5 }, by simp [lowOrder], pA, rfl, by decide⟩
  refine ⟨hinv, ?_⟩
  rw [hlogs]
  rfl

/-! ### C6 -/

/-- C6: for every order whose attempt succeeds, after `process_order`
commits the order's status is Completed with `processedAt` set and
`errorMessage` cleared; each referenced product's inventory quantity has
decreased by exactly that product's demanded quantity; the total decrement
equals the sum of the order's item quantities; the inventory row of every
product not referenced by the order is unchanged; and one Success SyncLog
is appended. -/
theorem c6_success_effects (db : DB) (oid now : Nat) (o : Order)
    (ho : findOrder db.orders oid = some o)
    (hsucc : (process_order db oid now).2 = .completed) :
    (∃ o2, findOrder (process_order db oid now).1.orders oid = some o2 ∧
      o2.status = .completed ∧ o2.processedAt = some now ∧ o2.errorMessage = none) ∧
    (∀ pid, qtyOf (process_order db oid now).1.inventory pid =
      qtyOf db.inventory pid - demand db.products o.items pid) ∧
    sumQty (process_order db oid now).1.inventory =
      sumQty db.inventory - (o.items.map (fun i => i.quantity)).sum ∧
    (∀ pid, pid ∉ resolvedIds db.products o.items →
      findInventory (process_order db oid now).1.inventory pid =
        findInventory db.inventory pid) ∧
    (process_order db oid now).1.syncLogs = db.syncLogs ++
      [{ taskName := "process_order", status := .success, orderId := some o.id,
         details := some (successDetails o.externalOrderId o.items.length),
         errorMessage := none }] := by
  cases hpi : processItems db.products db.inventory o.items with
  | error e =>
    simp only [process_order, ho, hpi] at hsucc
    cases hsucc
  | ok inv2 =>
    refine ⟨?_, ?_, ?_, ?_, ?_⟩
    · simp only [process_order, ho, hpi]
      have h1 := findOrder_updateFirst_self oid
        (fun o2 => { o2 with status := OrderStatus.processing }) (fun _ => rfl) db.orders o ho
      have h2 := findOrder_updateFirst_self oid
        (fun o2 => { o2 with
          status := OrderStatus.completed
          processedAt := some now
          errorMessage := none })
        (fun _ => rfl) _ _ h1
      exact ⟨_, h2, rfl, rfl, rfl⟩
    · intro pid
      simp only [process_order, ho, hpi]
      exact processItems_qtyOf db.products o.items db.inventory inv2 hpi pid
    · simp only [process_order, ho, hpi]
      exact processItems_sumQty db.products o.items db.inventory inv2 hpi
    · intro pid hpid
      simp only [process_order, ho, hpi]
      exact processItems_unreferenced db.products o.items db.inventory inv2 hpi pid hpid
    · simp only [process_order, ho, hpi]

/-- Witness for C6 at the sample order: the quantity of product 1 drops
by the demanded 3 units and the attempt reports success. -/
theorem c6_success_effects_witness :
    qtyOf (process_order sampleDB 1 42).1.inventory 1 =
      qtyOf sampleDB.inventory 1 - demand sampleDB.products sampleOrder.items 1 ∧
    (process_order sampleDB 1 42).2 = .completed :=
  ⟨(c6_success_effects sampleDB 1 42 sampleOrder rfl rfl).2.1 1, rfl⟩

/-! ### C10 -/

/-- C10: a line item whose SKU resolves to a catalog product that has no
inventory row makes `process_order` fail with the business `ValueError`
"No inventory record": the transaction is rolled back (inventory
unchanged), the order is marked Failed with that message, exactly one
Failure SyncLog is written, and no retry is scheduled — the same
permanent handling as the other business validation errors. -/
theorem c10_missing_inventory_row (db : DB) (oid now : Nat) (o : Order)
    (pre post : List OrderItem) (item : OrderItem) (p : Product) (invMid : List Inventory)
    (ho : findOrder db.orders oid = some o)
    (hsplit : o.items = pre ++ item :: post)
    (hpre : processItems db.products db.inventory pre = .ok invMid)
    (hp : findProduct db.products item.sku = some p)
    (hnoinv : findInventory invMid p.id = none) :
    (process_order db oid now).2 = .failedBusiness (.noInventory item.sku) ∧
    (process_order db oid now).1.inventory = db.inventory ∧
    (∃ o2, findOrder (process_order db oid now).1.orders oid = some o2 ∧
      o2.status = .failed ∧
      o2.errorMessage = some (errMessage (.noInventory item.sku))) ∧
    (process_order db oid now).1.syncLogs = db.syncLogs ++
      [{ taskName := "process_order", status := .failure, orderId := some oid,
         details := none, errorMessage := some (errMessage (.noInventory item.sku)) }] ∧
    ∀ d, (process_order db oid now).2 ≠ .retryScheduled d := by
  have hpi : processItems db.products db.inventory o.items =
      .error (.noInventory item.sku) := by
    rw [hsplit, processItems_append db.products pre (item :: post) db.inventory]
    simp only [hpre, processItems_cons, hp, hnoinv]
  refine ⟨?_, ?_, ?_, ?_, ?_⟩
  · simp only [process_order, ho, hpi]
  · simp only [process_order, ho, hpi, markFailed]
  · simp only [process_order, ho, hpi, markFailed]
    have h1 := findOrder_updateFirst_self oid
      (fun o2 => { o2 with status := OrderStatus.processing }) (fun _ => rfl) db.orders o ho
    have h2 := findOrder_updateFirst_self oid
      (fun o2 => { o2 with
        status := OrderStatus.failed
        errorMessage := some (errMessage (ProcErr.noInventory item.sku)) })
      (fun _ => rfl) _ _ h1
    exact ⟨_, h2, rfl, rfl⟩
  · simp only [process_order, ho, hpi, markFailed]
  · simp only [process_order, ho, hpi]
    intro d hd
    cases hd

/-- Witness for C10: a catalog product with no inventory row. -/
theorem c10_missing_inventory_row_witness :
    (process_order missingInvDB 4 0).2 = .failedBusiness (.noInventory "A1") ∧
    (process_order missingInvDB 4 0).1.inventory = missingInvDB.inventory := by
  obtain ⟨hout, hinv, _, _, _⟩ :=
    c10_missing_inventory_row missingInvDB 4 0 missingInvOrder
      [] [] { sku := "A1", quantity := 1 } pA [] rfl rfl rfl rfl rfl
  exact ⟨hout, hinv⟩

/-! ### C7 -/

/-- C7: on an unexpected (non-business) failure, while the delivery
counter is below the configured maximum `max_retries = 3` the handler
writes a Retry SyncLog (after the Failure SyncLog) and re-schedules the
job after exactly `60 * 2 ^ retries` seconds (60s, 120s, 240s); once the
counter reaches the maximum no retry is scheduled and the failure is
permanent.  Business validation errors are never retried: `process_order`
never returns a retry outcome. -/
theorem c7_retry_backoff :
    (∀ (db : DB) (oid : Nat) (msg : String) (r : Nat), r < max_retries →
      (handleUnexpected db oid msg r max_retries).2 = .retryScheduled (60 * 2 ^ r) ∧
      (handleUnexpected db oid msg r max_retries).1.syncLogs =
        (db.syncLogs ++
          [{ taskName := "process_order", status := .failure, orderId := some oid,
             details := none, errorMessage := some msg }]) ++
          [{ taskName := "process_order", status := .retry, orderId := some oid,
             details := some ("Retry attempt " ++ toString (r + 1)),
             errorMessage := some msg }]) ∧
    (60 * 2 ^ 0 = 60 ∧ 60 * 2 ^ 1 = 120 ∧ 60 * 2 ^ 2 = 240 ∧ max_retries = 3) ∧
    (∀ (db : DB) (oid : Nat) (msg : String) (r : Nat), ¬ r < max_retries →
      (handleUnexpected db oid msg r max_retries).2 = .failedPermanent msg ∧
      ∀ d, (handleUnexpected db oid msg r max_retries).2 ≠ .retryScheduled d) ∧
    (∀ (db : DB) (oid now d : Nat),
      (process_order db oid now).2 ≠ .retryScheduled d) := by
  refine ⟨?_, ⟨rfl, rfl, rfl, rfl⟩, ?_, ?_⟩
  · intro db oid msg r hr
    refine ⟨?_, ?_⟩ <;> simp [handleUnexpected, if_pos hr, markFailed, logRetry]
  · intro db oid msg r hr
    refine ⟨?_, ?_⟩
    · simp [handleUnexpected, if_neg hr, markFailed]
    · intro d hd
      simp only [handleUnexpected, if_neg hr, markFailed] at hd
      cases hd
  · intro db oid now d
    cases ho : findOrder db.orders oid with
    | none =>
      simp only [process_order, ho]
      intro hd
      cases hd
    | some o =>
      cases hpi : processItems db.products db.inventory o.items with
      | error e =>
        simp only [process_order, ho, hpi]
        intro hd
        cases hd
      | ok inv2 =>
        simp only [process_order, ho, hpi]
        intro hd
        cases hd

/-- Witness for C7: concrete delays 60s and 240s, and permanence at the
third redelivery. -/
theorem c7_retry_backoff_witness :
    (handleUnexpected emptyDB 1 "boom" 0 max_retries).2 = .retryScheduled (60 * 2 ^ 0) ∧
    (handleUnexpected emptyDB 1 "boom" 2 max_retries).2 = .retryScheduled (60 * 2 ^ 2) ∧
    (handleUnexpected emptyDB 1 "boom" 3 max_retries).2 = .failedPermanent "boom" :=
  ⟨(c7_retry_backoff.1 emptyDB 1 "boom" 0 (by decide)).1,
   (c7_retry_backoff.1 emptyDB 1 "boom" 2 (by decide)).1,
   (c7_retry_backoff.2.2.1 emptyDB 1 "boom" 3 (by decide)).1⟩

/-! ### C8 -/

/-- C8 counterexample: an order that becomes permanently Failed by
exhausting its automatic retries keeps `retryCount = 0`, which is not
`≥ max_retries = 3`: the worker counts attempts in the delivery metadata
and never increments the order row's `retry_count`. -/
theorem c8_counterexample :
    (handleUnexpected exhaustDB 1 "boom" 3 max_retries).2 = .failedPermanent "boom" ∧
    statuses (handleUnexpected exhaustDB 1 "boom" 3 max_retries).1.orders = [.failed] ∧
    retryCounts (handleUnexpected exhaustDB 1 "boom" 3 max_retries).1.orders = [0] ∧
    ¬ ((max_retries : Int) ≤ 0) :=
  ⟨rfl, rfl, rfl, by decide⟩

/-- C8 amended: `retryCount` never decreases — `process_order` and the
unexpected-failure handler leave every order's `retryCount` unchanged,
and the manual retry endpoint only ever increments it.  Automatic retries
therefore do not raise `retryCount`, so a permanently failed order's
`retryCount` reflects only its manual retries. -/
theorem c8_retry_count_monotone :
    (∀ (db : DB) (oid now : Nat),
      retryCounts (process_order db oid now).1.orders = retryCounts db.orders) ∧
    (∀ (db : DB) (oid : Nat) (msg : String) (r m : Nat),
      retryCounts (handleUnexpected db oid msg r m).1.orders = retryCounts db.orders) ∧
    (∀ (db : DB) (oid : Nat),
      List.Forall₂ (fun a b => a.retryCount ≤ b.retryCount) db.orders
        (retry_order db oid).1.orders) := by
  refine ⟨?_, ?_, ?_⟩
  · intro db oid now
    cases ho : findOrder db.orders oid with
    | none => simp only [process_order, ho]
    | some o =>
      cases hpi : processItems db.products db.inventory o.items with
      | error e =>
        simp only [process_order, ho, hpi, markFailed, retryCounts]
        rw [updateFirstOrder_map_retryCount oid
            (fun o2 => { o2 with
              status := OrderStatus.failed
              errorMessage := some (errMessage e) }) (fun _ => rfl),
          updateFirstOrder_map_retryCount oid
            (fun o2 => { o2 with status := OrderStatus.processing }) (fun _ => rfl)]
      | ok inv2 =>
        simp only [process_order, ho, hpi, retryCounts]
        rw [updateFirstOrder_map_retryCount oid
            (fun o2 => { o2 with
              status := OrderStatus.completed
              processedAt := some now
              errorMessage := none }) (fun _ => rfl),
          updateFirstOrder_map_retryCount oid
            (fun o2 => { o2 with status := OrderStatus.processing }) (fun _ => rfl)]
  · intro db oid msg r m
    by_cases hr : r < m
    · simp only [handleUnexpected, if_pos hr, logRetry, markFailed, retryCounts]
      exact updateFirstOrder_map_retryCount oid
        (fun o2 => { o2 with status := OrderStatus.failed, errorMessage := some msg })
        (fun _ => rfl) db.orders
    · simp only [handleUnexpected, if_neg hr, markFailed, retryCounts]
      exact updateFirstOrder_map_retryCount oid
        (fun o2 => { o2 with status := OrderStatus.failed, errorMessage := some msg })
        (fun _ => rfl) db.orders
  · intro db oid
    cases ho : findOrder db.orders oid with
    | none =>
      simp only [retry_order, ho]
      exact forall2_retryCount_le_refl db.orders
    | some o =>
      by_cases hs : o.status = .failed ∨ o.status = .pending
      · simp only [retry_order, ho, if_pos hs]
        exact updateFirstOrder_forall2_le oid
          (fun o2 => { o2 with
            status := OrderStatus.pending
            errorMessage := none
            retryCount := o2.retryCount + 1 })
          (fun o2 => by show o2.retryCount ≤ o2.retryCount + 1; omega) db.orders
      · simp only [retry_order, ho, if_neg hs]
        exact forall2_retryCount_le_refl db.orders

/-! ### C9 -/

/-- The scanner's out-of-stock test, `available ≤ 0`. -/
def isOutOfStock (r : Inventory) : Bool :=
  decide (r.quantity - r.reserved ≤ 0)

/-- The scanner's low-stock test, `0 < available ≤ reorder_level`. -/
def isLowStock (r : Inventory) : Bool :=
  decide (0 < r.quantity - r.reserved) && decide (r.quantity - r.reserved ≤ r.reorderLevel)

/-- The alert record the scanner builds for a row. -/
def mkAlert (ps : List Product) (r : Inventory) : StockAlert :=
  { sku := alertSku ps r.productId, name := alertName ps r.productId,
    available := r.quantity - r.reserved, reorderLevel := r.reorderLevel }

theorem classifyInventory_cons (ps : List Product) (r : Inventory) (rest : List Inventory) :
    classifyInventory ps (r :: rest) =
      (let lowOos := classifyInventory ps rest
       if r.quantity - r.reserved ≤ 0 then (lowOos.1, mkAlert ps r :: lowOos.2)
       else if r.quantity - r.reserved ≤ r.reorderLevel then
         (mkAlert ps r :: lowOos.1, lowOos.2)
       else lowOos) := by
  show (let alert : StockAlert :=
      { sku := alertSku ps r.productId
        name := alertName ps r.productId
        available := r.quantity - r.reserved
        reorderLevel := r.reorderLevel }
    let x := classifyInventory ps rest
    match x with
    | (low, oos) =>
      if r.quantity - r.reserved ≤ 0 then (low, alert :: oos)
      else if r.quantity - r.reserved ≤ r.reorderLevel then (alert :: low, oos)
      else (low, oos)) = _
  cases hx : classifyInventory ps rest with
  | mk low oos => simp [mkAlert]

/-- The classification loop computes exactly the two filters. -/
theorem classifyInventory_eq_filter (ps : List Product) :
    ∀ inv : List Inventory,
      classifyInventory ps inv =
        ((inv.filter isLowStock).map (mkAlert ps),
         (inv.filter isOutOfStock).map (mkAlert ps)) := by
  intro inv
  induction inv with
  | nil => rfl
  | cons r rest ih =>
    rw [classifyInventory_cons, ih]
    by_cases h1 : r.quantity - r.reserved ≤ 0
    · have hoos : isOutOfStock r = true := by simp [isOutOfStock, h1]
      have hlow : isLowStock r = false := by
        simp only [isLowStock, Bool.and_eq_false_iff]
        left
        simpa using h1
      simp [h1, List.filter_cons, hoos, hlow]
    · by_cases h2 : r.quantity - r.reserved ≤ r.reorderLevel
      · have hoos : isOutOfStock r = false := by simpa [isOutOfStock] using h1
        have h3 : 0 < r.quantity - r.reserved := not_le.mp h1
        have hlow : isLowStock r = true := by
          simp [isLowStock, h2, h3]
        simp [h1, h2, List.filter_cons, hoos, hlow]
      · have hoos : isOutOfStock r = false := by simpa [isOutOfStock] using h1
        have hlow : isLowStock r = false := by
          simp only [isLowStock, Bool.and_eq_false_iff]
          right
          simpa using h2
        simp [h1, h2, List.filter_cons, hoos, hlow]

/-- C9: the scanner writes one Failure SyncLog per inventory row with
`available ≤ 0`, one Success SyncLog per row with
`0 < available ≤ reorder_level`, no per-item log otherwise, and always a
single summary SyncLog for the run; it mutates no Inventory, Order or
Product row. -/
theorem c9_scan_classification (db : DB) :
    (sync_inventory db).1.inventory = db.inventory ∧
    (sync_inventory db).1.orders = db.orders ∧
    (sync_inventory db).1.products = db.products ∧
    (sync_inventory db).1.syncLogs = db.syncLogs
      ++ ((db.inventory.filter isOutOfStock).map
            (fun r => outOfStockLog (mkAlert db.products r)))
      ++ ((db.inventory.filter isLowStock).map
            (fun r => lowStockLog (mkAlert db.products r)))
      ++ [scanSummaryLog db.inventory.length
            (db.inventory.filter isLowStock).length
            (db.inventory.filter isOutOfStock).length] := by
  have hc := classifyInventory_eq_filter db.products db.inventory
  refine ⟨?_, ?_, ?_, ?_⟩ <;>
    simp [sync_inventory, hc, List.map_map, Function.comp_def]

end App
